import Mathlib

/-!
Shallow embedding of the spacv core (spatial cross-validation and
applicability-domain engine) and proofs about its claimed properties.

Sources embedded here:
  * src/spacv/.ipynb_checkpoints/spacv-checkpoint.py
    (HBLOCK, SLOO, cross_val_score, assign_pt_to_grid)
  * src/spacv/visualisation.py
    (variogram_at_lag, compute_semivariance, aoa)

Modelling conventions:
  * Coordinates, covariate values and distances use exact rational
    arithmetic.  Euclidean distances involve square roots, which are not
    rational, so geometric tests are expressed on squared distances and
    pairwise-distance matrices are passed as data where the code computes
    them with scipy's pdist/squareform.
  * numpy NaN is modelled as `none` in `Option` valued cells; nanmean and
    mean over possibly-NaN vectors are modelled explicitly.
  * Geometry operations (polygon containment, buffering, centroids) are
    modelled as capabilities carried by each tile, following the design
    note of the spec; shapely circular buffers are modelled as exact
    disks.
  * Fallible code paths are modelled with `Except String`.
-/

namespace Spacv

/-- Planar point: (x, y) coordinates in exact rational arithmetic. -/
abbrev Point := ℚ × ℚ

/-- Squared Euclidean distance between two planar points. -/
def sqDist (a b : Point) : ℚ := (a.1 - b.1) ^ 2 + (a.2 - b.2) ^ 2

/-- SLOO splitter state (spacv-checkpoint.py lines 92-102): the constructor
stores buffer_radius, shuffle and random_state on the instance. -/
structure SLOO where
  buffer_radius : ℚ
  shuffle : Bool := false
  random_state : Option ℕ := none

/-- SLOO._iter_test_indices (spacv-checkpoint.py lines 104-120): for each
test_index in range(n) build a circular buffer of the configured radius
around the point, clip the point set to the buffer, drop the test index
from the clipped indices, and yield ([test_index], exclusion).  The
circular buffer is modelled as an exact disk, membership tested on squared
distances. -/
def SLOO.iter_test_indices (s : SLOO) (pts : List Point) : List (List ℕ × List ℕ) :=
  (List.range pts.length).map fun test_index =>
    let in_buffer := (List.range pts.length).filter fun j =>
      decide (sqDist (pts.getD j (0, 0)) (pts.getD test_index (0, 0)) ≤ s.buffer_radius ^ 2)
    ([test_index], in_buffer.filter fun j => decide (j ≠ test_index))

/-- Names bound at module top level of spacv-checkpoint.py: the aliases and
symbols introduced by its import statements (lines 1-7) together with the
top-level classes and functions the module itself defines.  KFold is not
among them: the module never imports sklearn.model_selection. -/
def spacv_module_names : List String :=
  ["np", "gpd", "make_scorer", "KDTree", "BaseSpatialCV", "construct_blocks",
   "geometry_to_2d", "HBLOCK", "SLOO", "cross_val_score", "assign_pt_to_grid"]

/-- Python global-name resolution inside cross_val_score: an identifier that
is neither a local, a module global nor a builtin raises NameError. -/
def resolve_global (n : String) : Except String Unit :=
  if spacv_module_names.contains n then Except.ok ()
  else Except.error ("NameError: name " ++ n ++ " is not defined")

/-- The cv argument of cross_val_score: either None or a caller-supplied
splitter, abstracted as the list of (train, test) index pairs its split
method yields. -/
inductive CvArg
  | noneArg
  | given (folds : List (List ℕ × List ℕ))

/-- cv handling at the top of cross_val_score (spacv-checkpoint.py lines
130-132): when cv is None the code evaluates KFold(shuffle=True,
random_state=0, n_splits=5), which begins by resolving the global name
KFold.  The fold list of a successfully built splitter is returned. -/
def cross_val_score_resolve_cv (cv : CvArg) : Except String (List (List ℕ × List ℕ)) :=
  match cv with
  | CvArg.given folds => Except.ok folds
  | CvArg.noneArg =>
    match resolve_global ("KFold") with
    | Except.ok _ => Except.ok []
    | Except.error e => Except.error e

/-- One row of the loop body of compute_semivariance (visualisation.py
lines 92-101): for row i the mask entries at columns below i are forced to
False (mask_i[:i] = False, so columns j with i ≤ j survive), the masked
values xj are gathered, the squared differences ss = (xi - xj)^2 are
computed, and ss is filtered to its strictly positive entries. -/
def semis_for_row (x : List ℚ) (mask : ℕ → ℕ → Bool) (i : ℕ) : List ℚ :=
  (((List.range x.length).filter fun j => decide (i ≤ j) && mask i j).map
    fun j => (x.getD i 0 - x.getD j 0) ^ 2).filter fun ss => decide (0 < ss)

/-- compute_semivariance (visualisation.py lines 87-109): rows whose
positive squared differences are non-empty contribute their values to semis
and their count to counts; the result is sum(concatenate(semis)) divided by
(2 * sum(counts)).  When semis is empty np.concatenate raises ValueError,
which the except clause turns into the fallback value 0. -/
def compute_semivariance (x : List ℚ) (mask : ℕ → ℕ → Bool) : ℚ :=
  let semis := ((List.range x.length).map (semis_for_row x mask)).filter
    fun l => decide (0 < l.length)
  let counts := semis.map List.length
  if semis.isEmpty then 0
  else semis.flatten.sum / (2 * (counts.sum : ℚ))

/-- variogram_at_lag (visualisation.py lines 34-84): pd_m is the symmetric
pairwise-distance matrix built by pdist/squareform (diagonal zero), passed
here as data because Euclidean distances are square roots.  For each lag
the mask keeps the entries with lag - bw <= pd_m <= lag + bw and the
semivariance for that mask is paired with the lag. -/
def variogram_at_lag (pd_m : ℕ → ℕ → ℚ) (x : List ℚ) (lags : List ℚ) (bw : ℚ) :
    List (ℚ × ℚ) :=
  lags.map fun lag =>
    (compute_semivariance x (fun i j =>
      decide (lag - bw ≤ pd_m i j) && decide (pd_m i j ≤ lag + bw)), lag)

/-- Semivariance as the spec words it, for the refinement comparison of C4:
sum of squared value-differences over the point pairs (counted once,
upper-triangular, i < j) whose pairwise distance lies within
[lag - bw, lag + bw], divided by twice the number of such pairs. -/
def semivariance_spec (pd_m : ℕ → ℕ → ℚ) (x : List ℚ) (lag bw : ℚ) : ℚ :=
  let pairs := (List.range x.length).flatMap fun i =>
    ((List.range x.length).filter fun j =>
      decide (i < j) && decide (lag - bw ≤ pd_m i j) && decide (pd_m i j ≤ lag + bw)).map
      fun j => (i, j)
  if pairs.isEmpty then 0
  else (pairs.map fun p => (x.getD p.1 0 - x.getD p.2 0) ^ 2).sum /
    (2 * (pairs.length : ℚ))

/-- The squared value-differences of the masked upper-triangular pairs
(i < j) that are strictly positive: the pairs the code actually counts in
the semivariance denominator. -/
def positive_pair_diffs (x : List ℚ) (mask : ℕ → ℕ → Bool) : List ℚ :=
  (List.range x.length).flatMap fun i =>
    (((List.range x.length).filter fun j => decide (i < j) && mask i j).map
      fun j => (x.getD i 0 - x.getD j 0) ^ 2).filter fun ss => decide (0 < ss)

/-- np.mean of a per-feature column (population mean). -/
def np_mean (c : List ℚ) : ℚ := c.sum / c.length

/-- Whether np.std of a column is zero: the population standard deviation
vanishes exactly when every value equals the column mean.  Only this
zero-test of the standard deviation is needed here, which keeps the model
inside ℚ (std itself is a square root). -/
def np_std_is_zero (c : List ℚ) : Bool := c.all fun v => v == np_mean c

/-- Column j of a data frame stored as a list of rows. -/
def col (data : List (List ℚ)) (j : ℕ) : List ℚ := data.map fun row => row.getD j 0

/-- The failure behaviour of the entry of aoa (visualisation.py lines
292-301).  Line 292-293: fewer than two training instances raise the
configuration error.  Lines 296-297 standardize training_data and new_data
each by its own per-column mean and std; a zero-std column turns the whole
column into NaN (0/0).  Line 300-301 hand the standardized data to
sklearn's BallTree, whose documented input validation rejects non-finite
entries with ValueError (modelled sklearn contract). -/
def aoa_check (training new : List (List ℚ)) (ncols : ℕ) : Except String Unit :=
  if training.length ≤ 1 then
    Except.error ("At least two training instances need to be specified.")
  else if ((List.range ncols).any fun j => np_std_is_zero (col training j)) ||
          ((List.range ncols).any fun j => np_std_is_zero (col new j)) then
    Except.error ("ValueError: input contains NaN")
  else Except.ok ()

/-- np.nanmean along one row of a matrix with NaN cells modelled as none:
the mean of the non-NaN entries, or NaN when every entry is NaN (numpy
warns Mean of empty slice and yields nan). -/
def np_nanmean_row (row : List (Option ℚ)) : Option ℚ :=
  let vals := row.filterMap id
  if vals.isEmpty then none else some (vals.sum / vals.length)

/-- Plain np.mean of a vector that may contain NaN entries: any NaN (and
the empty vector) propagates to NaN. -/
def np_mean_opt (l : List (Option ℚ)) : Option ℚ :=
  if l.isEmpty || l.any Option.isNone then none
  else some ((l.filterMap id).sum / l.length)

/-- Lines 326-327 of visualisation.py: train_dist_mean =
np.nanmean(train_dist, axis=1); train_dist_avgmean =
np.mean(train_dist_mean).  The row means ignore NaN cells, but the outer
aggregation is a plain mean. -/
def train_dist_avgmean (M : List (List (Option ℚ))) : Option ℚ :=
  np_mean_opt (M.map np_nanmean_row)

/-- The aggregation the spec describes for C6: the undefined (NaN) mean of
an all-masked training point is excluded from the global normalization
constant, i.e. the outer aggregation is itself a nanmean. -/
def train_dist_avgmean_spec (M : List (List (Option ℚ))) : Option ℚ :=
  np_nanmean_row (M.map np_nanmean_row)

/-- Line 328 of visualisation.py: mindist /= train_dist_avgmean.  The
dissimilarity scores DIs are the nearest-training distances of the new
points divided by the global normalization constant; a NaN constant makes
every score NaN. -/
def normalize_mindist (mindist : List ℚ) (M : List (List (Option ℚ))) : List (Option ℚ) :=
  match train_dist_avgmean M with
  | none => mindist.map fun _ => none
  | some a => mindist.map fun d => some (d / a)

/-- Scaling every distance in the training pairwise-distance matrix by a
constant c (NaN cells stay NaN). -/
def scale_matrix (c : ℚ) (M : List (List (Option ℚ))) : List (List (Option ℚ)) :=
  M.map fun row => row.map (Option.map fun v => c * v)

/-- np.nanmin along one row: the minimum of the non-NaN entries, NaN when
all entries are NaN. -/
def np_nanmin_row (row : List (Option ℚ)) : Option ℚ :=
  match row.filterMap id with
  | [] => none
  | v :: rest => some (rest.foldl min v)

/-- np.quantile with the default linear interpolation: sort ascending, take
position h = q * (n - 1) and interpolate between the neighbouring order
statistics. -/
def np_quantile (xs : List ℚ) (q : ℚ) : ℚ :=
  let s := List.insertionSort (· ≤ ·) xs
  let n := s.length
  let h := q * ((n : ℚ) - 1)
  let i := (⌊h⌋).toNat
  let lo := s.getD i 0
  let hi := s.getD (min (i + 1) (n - 1)) 0
  lo + (h - (i : ℚ)) * (hi - lo)

/-- Lines 331-336 of visualisation.py: train_dist_min = np.nanmin(train_dist,
axis=1); thres = np.quantile(train_dist_min / train_dist_avgmean, q=thres).
A NaN normalization constant or a NaN row minimum propagates into the
quantile and makes the threshold NaN. -/
def aoa_threshold (M : List (List (Option ℚ))) (q : ℚ) : Option ℚ :=
  match train_dist_avgmean M with
  | none => none
  | some a =>
    let mins := M.map np_nanmin_row
    if mins.isEmpty || mins.any Option.isNone then none
    else some (np_quantile ((mins.filterMap id).map fun v => v / a) q)

/-- Lines 339-341 of visualisation.py: masked_result = np.repeat(1,
len(mindist)); masked_result[DIs > thres] = 0.  Every entry starts as 1 and
is zeroed where the score strictly exceeds the threshold; NaN comparisons
are false in numpy, so NaN scores keep the 1. -/
def aoa_masked_result (DIs : List (Option ℚ)) (thres : Option ℚ) : List ℕ :=
  DIs.map fun d =>
    match d, thres with
    | some v, some t => if t < v then 0 else 1
    | _, _ => 1

/-- Lines 309-323 of visualisation.py: the fold masking loop of aoa.  folds
is the two-column array pairing the concatenated fold_indices (column 0)
with the fold ids (column 1).  For each row i of train_dist the code builds
the boolean mask folds[:, 0] == folds[:, 0][i] - a comparison on column 0,
the training indices themselves - and sets the masked columns of row i to
NaN.  Out-of-range lookups cannot occur when fold_indices partitions
0..N-1, which is the only case the claim concerns. -/
def mask_same_fold (M : List (List (Option ℚ))) (fold_indices : List (List ℕ)) :
    List (List (Option ℚ)) :=
  let fold_concat := fold_indices.flatten
  (List.range M.length).map fun i =>
    let row := M.getD i []
    (List.range row.length).map fun j =>
      if fold_concat.getD j 0 == fold_concat.getD i 0 then none
      else row.getD j none

/-- The masking the spec describes for C2: for every training point i, the
distances to all points sharing a fold with i are set to NaN. -/
def mask_same_fold_spec (M : List (List (Option ℚ))) (fold_indices : List (List ℕ)) :
    List (List (Option ℚ)) :=
  (List.range M.length).map fun i =>
    let row := M.getD i []
    (List.range row.length).map fun j =>
      if fold_indices.any fun fold => fold.contains i && fold.contains j then none
      else row.getD j none

/-- A tile of the grid built by construct_blocks (the external Tile
Provider).  Geometry is modelled as capabilities, following the design note
of the spec: a decidable point-in-polygon test, the polygon centroid, and
the point-in-buffered-polygon test used for the dead zone.  With the
method used by HBLOCK the provider gives the tiles stable integer ids equal
to their positions in the grid list. -/
structure Tile where
  contains : Point → Bool
  centroid : Point
  buffered_contains : ℚ → Point → Bool

instance : Inhabited Tile := ⟨⟨fun _ => false, (0, 0), fun _ _ => false⟩⟩

/-- The KDTree nearest-centroid query of assign_pt_to_grid (lines 163-164):
the positional index of the tile whose centroid is nearest to p under
Euclidean distance (compared on squared distances), the first such position
on ties - deterministic, as the spec requires. -/
def nearest_centroid_pos (grid : List Tile) (p : Point) : ℕ :=
  (List.range grid.length).foldl
    (fun best k =>
      if sqDist (grid.getD k default).centroid p < sqDist (grid.getD best default).centroid p
      then k else best) 0

/-- The tiles whose polygon contains point p: the matches of the spatial
join gpd.sjoin(XYs, grid, how=left, op=within) for one point (line 151). -/
def tile_matches (grid : List Tile) (p : Point) : List ℕ :=
  (List.range grid.length).filter fun k => (grid.getD k default).contains p

/-- The grid id a point ends up with after assign_pt_to_grid: its sjoin
match when one exists, otherwise the nearest-centroid tile (lines 153-166). -/
def assigned_id (grid : List Tile) (p : Point) : ℕ :=
  match tile_matches grid p with
  | [] => nearest_centroid_pos grid p
  | k :: _ => k

/-- assign_pt_to_grid (spacv-checkpoint.py lines 149-169): the left spatial
join pairs every point index with each containing tile (duplicating the row
on multiple matches, as sjoin does); points with no match - the grid-border
cases - are assigned the positional index of the nearest tile centroid. -/
def assign_pt_to_grid (pts : List Point) (grid : List Tile) : List (ℕ × ℕ) :=
  (List.range pts.length).flatMap fun i =>
    if (tile_matches grid (pts.getD i (0, 0))).isEmpty then
      [(i, nearest_centroid_pos grid (pts.getD i (0, 0)))]
    else (tile_matches grid (pts.getD i (0, 0))).map fun k => (i, k)

/-- Line 71 of spacv-checkpoint.py: test_points =
XYs.loc[XYs[grid_id] == grid_id].index.values. -/
def hblock_test_points (XYs : List (ℕ × ℕ)) (grid_id : ℕ) : List ℕ :=
  (XYs.filter fun row => row.2 == grid_id).map fun row => row.1

/-- HBLOCK._iter_test_indices (spacv-checkpoint.py lines 45-90): assign the
points to the grid, then for each grid id in ascending order (np.unique)
take the indices assigned to it as the test set, skipping empty tiles;
with a positive buffer radius the exclusion set is the points falling in
the buffered tile polygon minus the test points, otherwise it is empty. -/
def hblock_iter_test_indices (pts : List Point) (grid : List Tile) (buffer_radius : ℚ) :
    List (List ℕ × List ℕ) :=
  let XYs := assign_pt_to_grid pts grid
  (List.range grid.length).filterMap fun grid_id =>
    let test_points := hblock_test_points XYs grid_id
    if test_points.isEmpty then none
    else
      some (test_points,
        if 0 < buffer_radius then
          ((List.range pts.length).filter fun j =>
            (grid.getD grid_id default).buffered_contains buffer_radius
              (pts.getD j (0, 0))).filter fun j => decide (j ∉ test_points)
        else [])

/-- The Tile Provider contract: the tiles partition the bounding region, so
no point lies in the interior of two different tiles - containment holds
for at most one tile (exact-boundary points match no tile and take the
nearest-centroid fallback). -/
def PartitionGrid (grid : List Tile) : Prop :=
  ∀ p : Point, ∀ k l, k < grid.length → l < grid.length →
    (grid.getD k default).contains p = true →
    (grid.getD l default).contains p = true → k = l

/-- The fold HBLOCK produces for one grid id once the assignment is
resolved to one id per point: the test set is the points whose assigned id
equals grid_id; empty tiles yield nothing; with a positive buffer the
exclusion is the buffered-polygon points minus the test set. -/
def hblock_fold_for (pts : List Point) (grid : List Tile) (r : ℚ) (g : ℕ) :
    Option (List ℕ × List ℕ) :=
  let T := (List.range pts.length).filter fun i => assigned_id grid (pts.getD i (0, 0)) == g
  if T.isEmpty then none
  else
    some (T,
      if 0 < r then
        ((List.range pts.length).filter fun j =>
          (grid.getD g default).buffered_contains r (pts.getD j (0, 0))).filter
          fun j => decide (j ∉ T)
      else [])

/-- Two tiles on the line x = 3/2: one containing x ≤ 1, one containing
x ≥ 2, with centroids (1, 0) and (3, 0).  Used as a concrete partition
grid. -/
def demo_grid : List Tile :=
  [⟨fun p => decide (p.1 ≤ 1), (1, 0), fun _ _ => false⟩,
   ⟨fun p => decide (2 ≤ p.1), (3, 0), fun _ _ => false⟩]

/-- Three points for the demo grid; the third point (3/2, 0) lies in
neither tile and is resolved by the nearest-centroid fallback. -/
def demo_pts : List Point := [(0, 0), (3, 0), (3/2, 0)]

/-! ### Theorems -/

/-- The nearest-centroid query returns a valid position whenever the grid
is non-empty. -/
theorem nearest_centroid_pos_lt (grid : List Tile) (p : Point) (h : grid ≠ []) :
    nearest_centroid_pos grid p < grid.length := by
  have hgen : ∀ (l : List ℕ) (b : ℕ), b < grid.length → (∀ k ∈ l, k < grid.length) →
      (l.foldl (fun best k =>
        if sqDist (grid.getD k default).centroid p <
            sqDist (grid.getD best default).centroid p
        then k else best) b) < grid.length := by
    intro l
    induction l with
    | nil => intro b hb _; exact hb
    | cons a t ih =>
      intro b hb hmem
      simp only [List.foldl_cons]
      apply ih
      · split
        · exact hmem a (List.mem_cons_self a t)
        · exact hb
      · intro k hk
        exact hmem k (List.mem_cons_of_mem a hk)
  unfold nearest_centroid_pos
  apply hgen
  · exact List.length_pos.mpr h
  · intro k hk
    exact List.mem_range.mp hk

/-- Membership in the sjoin matches of a point. -/
theorem mem_tile_matches {grid : List Tile} {p : Point} {k : ℕ} :
    k ∈ tile_matches grid p ↔
      k < grid.length ∧ (grid.getD k default).contains p = true := by
  unfold tile_matches
  rw [List.mem_filter, List.mem_range]

/-- Under the partition contract a point matches no tile or exactly the one
tile assigned_id picks. -/
theorem tile_matches_single {grid : List Tile} (hpart : PartitionGrid grid) (p : Point) :
    tile_matches grid p = [] ∨ tile_matches grid p = [assigned_id grid p] := by
  cases h : tile_matches grid p with
  | nil => exact Or.inl rfl
  | cons k rest =>
    right
    have hid : assigned_id grid p = k := by
      unfold assigned_id
      rw [h]
    have hnodup : (tile_matches grid p).Nodup :=
      List.Nodup.filter _ (List.nodup_range grid.length)
    have hall : ∀ x ∈ tile_matches grid p, x = k := by
      intro x hx
      have hk : k ∈ tile_matches grid p := by
        rw [h]
        exact List.mem_cons_self k rest
      obtain ⟨hx1, hx2⟩ := mem_tile_matches.mp hx
      obtain ⟨hk1, hk2⟩ := mem_tile_matches.mp hk
      exact hpart p x k hx1 hk1 hx2 hk2
    have hrest : rest = [] := by
      cases hr : rest with
      | nil => rfl
      | cons y t =>
        exfalso
        have hy : y ∈ tile_matches grid p := by
          rw [h, hr]
          exact List.mem_cons_of_mem k (List.mem_cons_self y t)
        have hyk : y = k := hall y hy
        rw [h, hr, hyk] at hnodup
        rw [List.nodup_cons] at hnodup
        exact hnodup.1 (List.mem_cons_self k t)
    rw [hrest, hid]

/-- Every assigned id is a valid grid position. -/
theorem assigned_id_lt (grid : List Tile) (p : Point) (h : grid ≠ []) :
    assigned_id grid p < grid.length := by
  unfold assigned_id
  cases hm : tile_matches grid p with
  | nil => exact nearest_centroid_pos_lt grid p h
  | cons k rest =>
    have hk : k ∈ tile_matches grid p := by
      rw [hm]
      exact List.mem_cons_self k rest
    exact (mem_tile_matches.mp hk).1

/-- A flatMap whose function yields singletons is a map. -/
theorem flatMap_singleton_eq_map {α β : Type} (l : List α) (g : α → List β) (f : α → β)
    (h : ∀ a ∈ l, g a = [f a]) : l.flatMap g = l.map f := by
  induction l with
  | nil => rfl
  | cons a t ih =>
    rw [List.flatMap_cons, h a (List.mem_cons_self a t),
      ih fun x hx => h x (List.mem_cons_of_mem a hx), List.map_cons]
    rfl

/-- Under the partition contract the assignment pairs every point index
with exactly one grid id: its assigned id. -/
theorem assign_rows (pts : List Point) (grid : List Tile) (hpart : PartitionGrid grid) :
    assign_pt_to_grid pts grid =
      (List.range pts.length).map fun i => (i, assigned_id grid (pts.getD i (0, 0))) := by
  unfold assign_pt_to_grid
  apply flatMap_singleton_eq_map
  intro i _
  rcases tile_matches_single hpart (pts.getD i (0, 0)) with h | h
  · have hid : assigned_id grid (pts.getD i (0, 0)) =
        nearest_centroid_pos grid (pts.getD i (0, 0)) := by
      unfold assigned_id
      rw [h]
    rw [h, hid]
    rfl
  · rw [h]
    rfl

/-- The test points of a grid id are the point indices assigned to it. -/
theorem hblock_test_points_eq (pts : List Point) (grid : List Tile)
    (hpart : PartitionGrid grid) (g : ℕ) :
    hblock_test_points (assign_pt_to_grid pts grid) g =
      (List.range pts.length).filter fun i =>
        assigned_id grid (pts.getD i (0, 0)) == g := by
  unfold hblock_test_points
  rw [assign_rows pts grid hpart, List.filter_map, List.map_map]
  simp only [Function.comp_def]
  exact List.map_id' _

/-- The HBLOCK fold sequence is the per-grid-id fold, tiles in ascending id
order, empty tiles skipped. -/
theorem hblock_folds_eq (pts : List Point) (grid : List Tile) (r : ℚ)
    (hpart : PartitionGrid grid) :
    hblock_iter_test_indices pts grid r =
      (List.range grid.length).filterMap (hblock_fold_for pts grid r) := by
  simp only [hblock_iter_test_indices]
  apply List.filterMap_congr
  intro g _
  simp only [hblock_fold_for]
  rw [hblock_test_points_eq pts grid hpart g]

/-- Each point index below N lies in the test set of exactly one HBLOCK
fold. -/
theorem hblock_count_core (pts : List Point) (grid : List Tile) (r : ℚ)
    (hgrid : grid ≠ []) (hpart : PartitionGrid grid) (i : ℕ) (hi : i < pts.length) :
    List.countP (fun f => decide (i ∈ f.1)) (hblock_iter_test_indices pts grid r) = 1 := by
  rw [hblock_folds_eq pts grid r hpart, List.countP_filterMap]
  have hcong : ∀ g ∈ List.range grid.length,
      ((Option.map (fun f => decide (i ∈ f.1)) (hblock_fold_for pts grid r g)).getD false)
        = true ↔
      (g == assigned_id grid (pts.getD i (0, 0))) = true := by
    intro g _
    simp only [hblock_fold_for]
    by_cases hempty : ((List.range pts.length).filter fun j =>
        assigned_id grid (pts.getD j (0, 0)) == g).isEmpty = true
    · rw [if_pos hempty]
      simp only [Option.map_none', Option.getD_none]
      constructor
      · intro hfalse
        exact absurd hfalse (by simp)
      · intro hgid
        exfalso
        have hgid2 : g = assigned_id grid (pts.getD i (0, 0)) := by simpa using hgid
        have hiT : i ∈ (List.range pts.length).filter fun j =>
            assigned_id grid (pts.getD j (0, 0)) == g := by
          rw [List.mem_filter, List.mem_range]
          refine ⟨hi, ?_⟩
          rw [hgid2]
          simp
        rw [List.isEmpty_iff] at hempty
        rw [hempty] at hiT
        exact absurd hiT (List.not_mem_nil i)
    · rw [if_neg hempty]
      simp only [Option.map_some', Option.getD_some, decide_eq_true_eq, beq_iff_eq]
      rw [List.mem_filter, List.mem_range]
      constructor
      · rintro ⟨_, h2⟩
        have h3 : assigned_id grid (pts.getD i (0, 0)) = g := by simpa using h2
        exact h3.symm
      · intro h2
        refine ⟨hi, ?_⟩
        simp [h2]
  rw [List.countP_congr hcong]
  have hlt := assigned_id_lt grid (pts.getD i (0, 0)) hgrid
  have hcount := List.count_eq_one_of_mem (List.nodup_range grid.length)
    (List.mem_range.mpr hlt)
  exact hcount

/-- Every index in any HBLOCK test set is a valid point index. -/
theorem hblock_test_mem (pts : List Point) (grid : List Tile) (r : ℚ)
    (hpart : PartitionGrid grid) :
    ∀ f ∈ hblock_iter_test_indices pts grid r, ∀ i ∈ f.1, i < pts.length := by
  intro f hf i hif
  rw [hblock_folds_eq pts grid r hpart] at hf
  obtain ⟨g, _, hfg⟩ := List.mem_filterMap.mp hf
  simp only [hblock_fold_for] at hfg
  split at hfg
  · exact absurd hfg (by simp)
  · have hfeq := Option.some.inj hfg
    rw [← hfeq] at hif
    simp only at hif
    rw [List.mem_filter, List.mem_range] at hif
    exact hif.1

/-- C1: for every point set and every partition grid, across the full
HBLOCK fold sequence each input point index appears in exactly one fold
test set, and the union of all test sets is exactly the index range
0..N-1. -/
theorem hblock_partitions_indices (pts : List Point) (grid : List Tile) (r : ℚ)
    (hgrid : grid ≠ []) (hpart : PartitionGrid grid) :
    (∀ i, i < pts.length →
      List.countP (fun f => decide (i ∈ f.1)) (hblock_iter_test_indices pts grid r) = 1) ∧
    (∀ i, (∃ f ∈ hblock_iter_test_indices pts grid r, i ∈ f.1) ↔ i < pts.length) := by
  refine ⟨fun i hi => hblock_count_core pts grid r hgrid hpart i hi, fun i => ⟨?_, ?_⟩⟩
  · rintro ⟨f, hf, hif⟩
    exact hblock_test_mem pts grid r hpart f hf i hif
  · intro hi
    have hc := hblock_count_core pts grid r hgrid hpart i hi
    have hpos : 0 < List.countP (fun f => decide (i ∈ f.1))
        (hblock_iter_test_indices pts grid r) := by
      rw [hc]
      exact Nat.one_pos
    obtain ⟨f, hf, hq⟩ := List.countP_pos.mp hpos
    exact ⟨f, hf, of_decide_eq_true hq⟩

/-- C1 witness: the two-tile demo grid with a boundary point resolved by
nearest centroid - point 0 is in exactly one test set and boundary point 2
appears in some test set. -/
theorem hblock_partitions_indices_witness :
    demo_grid ≠ [] ∧
    List.countP (fun f => decide (0 ∈ f.1))
      (hblock_iter_test_indices demo_pts demo_grid 0) = 1 ∧
    (∃ f ∈ hblock_iter_test_indices demo_pts demo_grid 0, 2 ∈ f.1) := by
  have hpart : PartitionGrid demo_grid := by
    intro p k l hk hl hck hcl
    have h2 : demo_grid.length = 2 := rfl
    rw [h2] at hk hl
    interval_cases k <;> interval_cases l <;> first
      | rfl
      | (exfalso
         simp only [demo_grid, List.getD_cons_zero, List.getD_cons_succ,
           decide_eq_true_eq] at hck hcl
         linarith)
  have hcore := hblock_partitions_indices demo_pts demo_grid 0
    (List.cons_ne_nil _ _) hpart
  exact ⟨List.cons_ne_nil _ _, hcore.1 0 (by norm_num [demo_pts]),
    (hcore.2 2).mpr (by norm_num [demo_pts])⟩

/-- C9: for every point set of N points SLOO produces exactly N folds, one
per point with none skipped; the fold for point i has test set equal to the
singleton [i]; point i never appears in its own excluded set, which holds
exactly the other points whose location falls within the circular buffer of
the configured radius centred at point i. -/
theorem sloo_folds_spec (s : SLOO) (pts : List Point) :
    (s.iter_test_indices pts).length = pts.length ∧
    ∀ i, i < pts.length →
      ((s.iter_test_indices pts).getD i ([], [])).1 = [i] ∧
      i ∉ ((s.iter_test_indices pts).getD i ([], [])).2 ∧
      ∀ j, (j ∈ ((s.iter_test_indices pts).getD i ([], [])).2 ↔
        (j < pts.length ∧ j ≠ i ∧
          sqDist (pts.getD j (0, 0)) (pts.getD i (0, 0)) ≤ s.buffer_radius ^ 2)) := by
  constructor
  · simp [SLOO.iter_test_indices]
  · intro i hi
    have hfold : (s.iter_test_indices pts).getD i ([], []) =
        ([i], ((List.range pts.length).filter fun j =>
          decide (sqDist (pts.getD j (0, 0)) (pts.getD i (0, 0)) ≤ s.buffer_radius ^ 2)).filter
          fun j => decide (j ≠ i)) := by
      rw [List.getD_eq_getElem?_getD, SLOO.iter_test_indices, List.getElem?_map,
          List.getElem?_range hi]
      rfl
    rw [hfold]
    refine ⟨rfl, ?_, ?_⟩
    · intro hmem
      have h2 := (List.mem_filter.mp hmem).2
      simp at h2
    · intro j
      simp only [List.mem_filter, List.mem_range, decide_eq_true_eq]
      tauto

/-- C9 witness: on four collinear points with radius 3/2, the second fold
has test set [1]. -/
theorem sloo_folds_spec_witness :
    (1 : ℕ) < ([((0 : ℚ), (0 : ℚ)), (1, 0), (2, 0), (3, 0)] : List Point).length ∧
    ((SLOO.iter_test_indices ⟨3/2, false, none⟩
        [((0 : ℚ), (0 : ℚ)), (1, 0), (2, 0), (3, 0)]).getD 1 ([], [])).1 = [1] := by
  refine ⟨by decide, ?_⟩
  exact ((sloo_folds_spec ⟨3/2, false, none⟩
    [((0 : ℚ), (0 : ℚ)), (1, 0), (2, 0), (3, 0)]).2 1 (by decide)).1

/-- C10 counterexample: contrary to the claim, there is no input on which
enabling shuffle changes the emission order: already on this concrete
4-point input with a fixed random state, the fold sequence with shuffle
enabled is identical to (not a reordering of) the unshuffled sequence. -/
theorem sloo_shuffle_counterexample :
    SLOO.iter_test_indices ⟨3/2, true, some 42⟩ [((0 : ℚ), (0 : ℚ)), (1, 0), (2, 0), (3, 0)] =
    SLOO.iter_test_indices ⟨3/2, false, none⟩ [((0 : ℚ), (0 : ℚ)), (1, 0), (2, 0), (3, 0)] := rfl

/-- C10 amended: the shuffle and random_state settings are stored by the
SLOO constructor but never read by _iter_test_indices, so the emitted fold
sequence is identical - element for element, in the same order - for every
input, with or without shuffling. -/
theorem sloo_shuffle_noop (pts : List Point) (r : ℚ) (s1 s2 : Bool)
    (rs1 rs2 : Option ℕ) :
    SLOO.iter_test_indices ⟨r, s1, rs1⟩ pts = SLOO.iter_test_indices ⟨r, s2, rs2⟩ pts := rfl

/-- C3: with cv = None, cross_val_score evaluates KFold(...), but the module
never imports KFold, so name resolution fails and the call raises NameError
instead of completing a conventional randomized K-fold cross-validation. -/
theorem cross_val_score_kfold_nameerror :
    "KFold" ∉ spacv_module_names ∧
    cross_val_score_resolve_cv CvArg.noneArg =
      Except.error ("NameError: name KFold is not defined") := by
  exact ⟨by decide, rfl⟩

set_option maxHeartbeats 1000000 in
/-- C4 counterexample: three points with all off-diagonal distances equal
to 1, values [0, 0, 1], lag 1, bandwidth 1/2.  All three upper-triangular
pairs qualify, so the spec formula gives (0 + 1 + 1) / (2 * 3) = 1/3, but
the code divides by twice the number of pairs with strictly positive
squared difference and returns (1 + 1) / (2 * 2) = 1/2. -/
theorem semivariance_denominator_counterexample :
    variogram_at_lag (fun i j => if i = j then 0 else 1) [0, 0, 1] [1] (1/2) =
      [(1/2, 1)] ∧
    semivariance_spec (fun i j => if i = j then 0 else 1) [0, 0, 1] 1 (1/2) = 1/3 ∧
    ((1 : ℚ)/2) ≠ 1/3 := by
  have h3 : List.range 3 = [0, 1, 2] := rfl
  refine ⟨?_, ?_, by norm_num⟩
  · norm_num [variogram_at_lag, compute_semivariance, semis_for_row, h3]
  · norm_num [semivariance_spec, List.flatMap, h3]

/-- C4 amended: the semivariance equals the sum of squared
value-differences over the masked upper-triangular pairs divided by twice
the number of such pairs whose squared value-difference is strictly
positive (equal-valued pairs contribute to neither numerator nor
denominator), and it is 0 when no positive-difference pair exists. -/
theorem compute_semivariance_positive_pairs (x : List ℚ) (mask : ℕ → ℕ → Bool) :
    compute_semivariance x mask =
      if (positive_pair_diffs x mask).isEmpty then 0
      else (positive_pair_diffs x mask).sum /
        (2 * ((positive_pair_diffs x mask).length : ℚ)) := by
  have hrow : ∀ i ∈ List.range x.length, semis_for_row x mask i =
      (((List.range x.length).filter fun j => decide (i < j) && mask i j).map
        fun j => (x.getD i 0 - x.getD j 0) ^ 2).filter fun ss => decide (0 < ss) := by
    intro i _
    unfold semis_for_row
    rw [List.filter_map, List.filter_map, List.filter_filter, List.filter_filter]
    congr 1
    apply List.filter_congr
    intro j _
    by_cases hji : j = i
    · subst hji
      simp [Function.comp]
    · have hd : decide (i ≤ j) = decide (i < j) := decide_eq_decide.mpr (by omega)
      simp [Function.comp, hd]
  have hrows : (List.range x.length).map (semis_for_row x mask) =
      (List.range x.length).map (fun i =>
        (((List.range x.length).filter fun j => decide (i < j) && mask i j).map
          fun j => (x.getD i 0 - x.getD j 0) ^ 2).filter fun ss => decide (0 < ss)) :=
    List.map_congr_left hrow
  have hppd : positive_pair_diffs x mask =
      ((List.range x.length).map (semis_for_row x mask)).flatten := by
    rw [hrows]; rfl
  simp only [compute_semivariance]
  set rows := (List.range x.length).map (semis_for_row x mask) with hrowsdef
  set F := rows.filter fun l => decide (0 < l.length) with hFdef
  have hflat : F.flatten = rows.flatten := by
    rw [hFdef]
    have hconv : (rows.filter fun l => decide (0 < l.length)) =
        rows.filter fun l => decide (l ≠ []) := by
      apply List.filter_congr
      intro a _
      exact decide_eq_decide.mpr List.length_pos
    rw [hconv, List.flatten_filter_ne_nil]
  have hlen : (F.map List.length).sum = rows.flatten.length := by
    rw [← hflat, List.length_flatten]
  by_cases hnil : rows.flatten = []
  · have hFnil : F = [] := by
      rw [hFdef, List.filter_eq_nil_iff]
      intro a ha
      have ha0 : a = [] := List.flatten_eq_nil_iff.mp hnil a ha
      subst ha0
      simp
    rw [hppd, hnil]
    simp [hFnil]
  · have hFne : F ≠ [] := by
      intro h
      apply hnil
      rw [← hflat, h]
      rfl
    have h1 : F.isEmpty = false := by
      simpa [List.isEmpty_iff] using hFne
    have h2 : (positive_pair_diffs x mask).isEmpty = false := by
      rw [hppd]
      simpa [List.isEmpty_iff] using hnil
    rw [h1, h2]
    simp only [if_false, hppd]
    rw [hflat, hlen]

/-- C2: the fold-masking loop of aoa does not mask same-fold distances.  On
a 3x3 training-distance matrix with folds [[0, 1], [2]], the loop leaves the
matrix unchanged - in particular the distance between training points 0 and
1, which share fold 0, stays unmasked - whereas the masking described by
the spec blanks all four cells of the fold-0 block. -/
theorem fold_masking_noop :
    mask_same_fold [[none, some 1, some 5], [some 1, none, some 5], [some 5, some 5, none]]
        [[0, 1], [2]] =
      [[none, some 1, some 5], [some 1, none, some 5], [some 5, some 5, none]] ∧
    mask_same_fold_spec
        [[none, some 1, some 5], [some 1, none, some 5], [some 5, some 5, none]]
        [[0, 1], [2]] =
      [[none, none, some 5], [none, none, some 5], [some 5, some 5, none]] := by
  constructor <;> decide

/-- C5 counterexample: a training set with two (identical) instances has at
least 2 instances, yet aoa raises: standardization divides the constant
column by a zero standard deviation, the standardized training data is all
NaN, and the BallTree constructor rejects it with ValueError.  So it is not
true that aoa never raises on training sets with at least 2 instances. -/
theorem aoa_two_instances_raises :
    2 ≤ ([[(0 : ℚ)], [0]] : List (List ℚ)).length ∧
    aoa_check [[(0 : ℚ)], [0]] [[1], [3]] 1 =
      Except.error ("ValueError: input contains NaN") := by
  refine ⟨by norm_num, ?_⟩
  norm_num [aoa_check, np_std_is_zero, col, np_mean]

/-- C5 amended: aoa raises the configuration error (the at-least-two
message, before any computation) exactly when the training data has fewer
than 2 instances; with at least 2 instances it does not raise provided no
feature column of the training or new data has zero standard deviation
(otherwise standardization produces NaN and the BallTree raises
ValueError, a non-configuration error). -/
theorem aoa_config_error_iff (training new : List (List ℚ)) (ncols : ℕ) :
    (aoa_check training new ncols =
        Except.error ("At least two training instances need to be specified.") ↔
      training.length ≤ 1) ∧
    (2 ≤ training.length →
      (∀ j, j < ncols → np_std_is_zero (col training j) = false) →
      (∀ j, j < ncols → np_std_is_zero (col new j) = false) →
      aoa_check training new ncols = Except.ok ()) := by
  constructor
  · constructor
    · intro h
      by_cases h1 : training.length ≤ 1
      · exact h1
      · exfalso
        unfold aoa_check at h
        rw [if_neg h1] at h
        split at h
        · injection h with h2
          exact absurd h2 (by decide)
        · exact Except.noConfusion h
    · intro h1
      unfold aoa_check
      rw [if_pos h1]
  · intro h2 htr hnew
    unfold aoa_check
    rw [if_neg (by omega)]
    have ha : ((List.range ncols).any fun j => np_std_is_zero (col training j)) = false := by
      rw [List.any_eq_false]
      intro j hj
      rw [htr j (List.mem_range.mp hj)]
      simp
    have hb : ((List.range ncols).any fun j => np_std_is_zero (col new j)) = false := by
      rw [List.any_eq_false]
      intro j hj
      rw [hnew j (List.mem_range.mp hj)]
      simp
    rw [ha, hb]
    simp

/-- C5 witness: on a non-degenerate 2-instance training set the amended
theorem yields a clean return. -/
theorem aoa_config_error_iff_witness :
    aoa_check [[(0 : ℚ)], [2]] [[1], [5]] 1 = Except.ok () := by
  apply (aoa_config_error_iff [[(0 : ℚ)], [2]] [[1], [5]] 1).2
  · norm_num
  · intro j hj
    have hj0 : j = 0 := by omega
    subst hj0
    norm_num [np_std_is_zero, col, np_mean]
  · intro j hj
    have hj0 : j = 0 := by omega
    subst hj0
    norm_num [np_std_is_zero, col, np_mean]

/-- C6 counterexample: a matrix whose first training point has every
distance masked.  The code propagates the NaN row mean through np.mean and
the normalization constant becomes NaN (none); the exclusion the spec
describes would instead give 3/2. -/
theorem nanmean_propagation_counterexample :
    train_dist_avgmean
        [[none, none, none], [some 1, none, some 2], [some 1, some 2, none]] = none ∧
    train_dist_avgmean_spec
        [[none, none, none], [some 1, none, some 2], [some 1, some 2, none]] =
      some (3/2) := by
  constructor
  · norm_num [train_dist_avgmean, np_mean_opt, np_nanmean_row, List.filterMap_cons,
      List.filterMap_nil]
  · norm_num [train_dist_avgmean_spec, np_nanmean_row, List.filterMap_cons,
      List.filterMap_nil]

/-- C6 amended: the undefined (NaN) mean distance of a training point whose
distances are all masked is not excluded: because the global normalization
constant is a plain np.mean of the per-point nanmeans, any such point makes
the constant itself NaN. -/
theorem nanmean_propagates (M : List (List (Option ℚ))) (i : ℕ) (hi : i < M.length)
    (hrow : ∀ v ∈ M.getD i [], v = none) :
    train_dist_avgmean M = none := by
  have hnone : np_nanmean_row (M.getD i []) = none := by
    have hempty : (M.getD i []).filterMap id = [] :=
      List.filterMap_eq_nil_iff.mpr fun a ha => hrow a ha
    simp only [np_nanmean_row]
    rw [hempty]
    rfl
  have hgd : M.getD i [] = M[i] := by
    rw [List.getD_eq_getElem?_getD, List.getElem?_eq_getElem hi]
    rfl
  have hmem : np_nanmean_row (M.getD i []) ∈ M.map np_nanmean_row := by
    rw [hgd]
    exact List.mem_map_of_mem np_nanmean_row (List.getElem_mem hi)
  have hany : (M.map np_nanmean_row).any Option.isNone = true := by
    rw [List.any_eq_true]
    exact ⟨np_nanmean_row (M.getD i []), hmem, by rw [hnone]; rfl⟩
  unfold train_dist_avgmean np_mean_opt
  rw [hany]
  simp

/-- C6 witness: the amended theorem applied to the concrete degenerate
matrix. -/
theorem nanmean_propagates_witness :
    train_dist_avgmean
        [[none, none, none], [some 1, none, some 2], [some 1, some 2, none]] = none :=
  nanmean_propagates
    [[none, none, none], [some 1, none, some 2], [some 1, some 2, none]]
    0 (by decide) (by decide)

/-- Scaling the cells of one matrix row commutes with np.nanmean. -/
theorem np_nanmean_row_scale (c : ℚ) (row : List (Option ℚ)) :
    np_nanmean_row (row.map (Option.map fun v => c * v)) =
      (np_nanmean_row row).map fun v => c * v := by
  have hfm : (row.map (Option.map fun v => c * v)).filterMap id =
      (row.filterMap id).map fun v => c * v := by
    induction row with
    | nil => rfl
    | cons a t ih => cases a <;> simp [ih]
  simp only [np_nanmean_row]
  rw [hfm]
  by_cases hnil : row.filterMap id = []
  · simp [hnil]
  · have h1 : ((row.filterMap id).map fun v => c * v).isEmpty = false := by
      simp [List.isEmpty_iff, hnil]
    have h2 : (row.filterMap id).isEmpty = false := by
      simp [List.isEmpty_iff, hnil]
    rw [h1, h2]
    simp only [Bool.false_eq_true, if_false, Option.map_some', List.length_map]
    congr 1
    rw [List.sum_map_mul_left]
    simp [mul_div_assoc]

/-- Scaling every distance scales the global normalization constant. -/
theorem train_dist_avgmean_scale (c : ℚ) (M : List (List (Option ℚ))) :
    train_dist_avgmean (scale_matrix c M) =
      (train_dist_avgmean M).map fun v => c * v := by
  unfold train_dist_avgmean scale_matrix
  have hrows : (M.map fun row => row.map (Option.map fun v => c * v)).map np_nanmean_row =
      (M.map np_nanmean_row).map (Option.map fun v => c * v) := by
    rw [List.map_map, List.map_map]
    apply List.map_congr_left
    intro row _
    exact np_nanmean_row_scale c row
  rw [hrows]
  unfold np_mean_opt
  have hfm : ((M.map np_nanmean_row).map (Option.map fun v => c * v)).filterMap id =
      ((M.map np_nanmean_row).filterMap id).map fun v => c * v := by
    generalize M.map np_nanmean_row = L
    induction L with
    | nil => rfl
    | cons a t ih => cases a <;> simp [ih]
  have hempty : ((M.map np_nanmean_row).map (Option.map fun v => c * v)).isEmpty =
      (M.map np_nanmean_row).isEmpty := by
    generalize M.map np_nanmean_row = L
    cases L <;> rfl
  have hany : ((M.map np_nanmean_row).map (Option.map fun v => c * v)).any Option.isNone =
      (M.map np_nanmean_row).any Option.isNone := by
    generalize M.map np_nanmean_row = L
    induction L with
    | nil => rfl
    | cons a t ih => cases a <;> simp [ih]
  rw [hfm, hempty, hany]
  by_cases hcond : ((M.map np_nanmean_row).isEmpty || (M.map np_nanmean_row).any Option.isNone) = true
  · rw [hcond]
    simp
  · rw [Bool.not_eq_true] at hcond
    rw [hcond]
    simp only [Bool.false_eq_true, if_false, Option.map_some', List.length_map]
    congr 1
    rw [List.sum_map_mul_left]
    simp [mul_div_assoc]

/-- C7 counterexample: one new point at distance 2 and a two-point training
set at pairwise distance 1.  The dissimilarity score is 2/1 = 2; after
scaling every distance by c = 2 the score is 4/2 = 2 again, not the claimed
c-times-larger 4. -/
theorem aoa_scale_counterexample :
    normalize_mindist [(4 : ℚ)] (scale_matrix 2 [[none, some 1], [some 1, none]]) ≠
      (normalize_mindist [(2 : ℚ)] [[none, some 1], [some 1, none]]).map
        (Option.map fun v => 2 * v) := by
  norm_num [normalize_mindist, scale_matrix, train_dist_avgmean, np_mean_opt,
    np_nanmean_row, List.filterMap_cons, List.filterMap_nil]

/-- C7 amended: the aoa dissimilarity scores are scale-invariant, not
scale-equivariant: multiplying every input distance (the new-point nearest
distances and the training pairwise distances) by a positive constant c
leaves every score unchanged, because the mean-distance normalization
constant absorbs the factor. -/
theorem aoa_scale_invariant (c : ℚ) (hc : 0 < c) (mindist : List ℚ)
    (M : List (List (Option ℚ))) :
    normalize_mindist (mindist.map fun d => c * d) (scale_matrix c M) =
      normalize_mindist mindist M := by
  unfold normalize_mindist
  rw [train_dist_avgmean_scale]
  cases h : train_dist_avgmean M with
  | none => simp [List.map_map, Function.comp_def]
  | some a =>
    simp only [Option.map_some', List.map_map]
    apply List.map_congr_left
    intro d _
    simp only [Function.comp]
    congr 1
    exact mul_div_mul_left d a (ne_of_gt hc)

/-- C7 witness: the invariance at the counterexample instance. -/
theorem aoa_scale_invariant_witness :
    (0 : ℚ) < 2 ∧
    normalize_mindist ([(2 : ℚ)].map fun d => 2 * d)
        (scale_matrix 2 [[none, some 1], [some 1, none]]) =
      normalize_mindist [(2 : ℚ)] [[none, some 1], [some 1, none]] :=
  ⟨by norm_num, aoa_scale_invariant 2 (by norm_num) [2] [[none, some 1], [some 1, none]]⟩

/-- C8: in the defined regime that every successful aoa call reaches (a
defined, positive normalization constant), every dissimilarity score is the
non-negative value mindist_i / avg, and the applicability mask entry is 1
exactly when that score is at most the quantile threshold. -/
theorem aoa_scores_nonneg_and_mask (mindist : List ℚ) (M : List (List (Option ℚ)))
    (q a t : ℚ)
    (hmind : ∀ d ∈ mindist, 0 ≤ d)
    (havg : train_dist_avgmean M = some a) (ha : 0 < a)
    (ht : aoa_threshold M q = some t) :
    ∀ i, i < mindist.length →
      (normalize_mindist mindist M).getD i none = some (mindist.getD i 0 / a) ∧
      0 ≤ mindist.getD i 0 / a ∧
      ((aoa_masked_result (normalize_mindist mindist M) (aoa_threshold M q)).getD i 0 = 1 ↔
        mindist.getD i 0 / a ≤ t) := by
  intro i hi
  have hDI : normalize_mindist mindist M = mindist.map fun d => some (d / a) := by
    unfold normalize_mindist
    rw [havg]
  have hgd : mindist.getD i 0 = mindist[i] := by
    rw [List.getD_eq_getElem?_getD, List.getElem?_eq_getElem hi]
    rfl
  have hget : (normalize_mindist mindist M).getD i none = some (mindist.getD i 0 / a) := by
    rw [hDI, List.getD_eq_getElem?_getD, List.getElem?_map, List.getElem?_eq_getElem hi, hgd]
    rfl
  refine ⟨hget, ?_, ?_⟩
  · apply div_nonneg _ (le_of_lt ha)
    apply hmind
    rw [hgd]
    exact List.getElem_mem hi
  · rw [ht, hDI]
    unfold aoa_masked_result
    rw [List.getD_eq_getElem?_getD, List.getElem?_map, List.getElem?_map,
      List.getElem?_eq_getElem hi, hgd]
    simp only [Option.map_some', Option.getD_some]
    show ((if t < mindist[i] / a then (0 : ℕ) else 1) = 1) ↔ mindist[i] / a ≤ t
    by_cases hlt : t < mindist[i] / a
    · rw [if_pos hlt]
      simp [not_le_of_lt hlt]
    · rw [if_neg hlt]
      simp [not_lt.mp hlt]

/-- C8 witness: two new points at normalized distances 1 and 5, a
two-point training set at pairwise distance 1, quantile 1: the threshold is
1, the first score is 1 with mask 1. -/
theorem aoa_scores_nonneg_and_mask_witness :
    (normalize_mindist [1, 5] [[none, some 1], [some 1, none]]).getD 0 none =
      some ((1 : ℚ) / 1) ∧
    (0 : ℚ) ≤ 1 / 1 ∧
    ((aoa_masked_result (normalize_mindist [1, 5] [[none, some 1], [some 1, none]])
        (aoa_threshold [[none, some 1], [some 1, none]] 1)).getD 0 0 = 1 ↔
      (1 : ℚ) / 1 ≤ 1) := by
  have havg : train_dist_avgmean [[none, some (1 : ℚ)], [some 1, none]] = some 1 := by
    norm_num [train_dist_avgmean, np_mean_opt, np_nanmean_row, List.filterMap_cons,
      List.filterMap_nil]
  have ht : aoa_threshold [[none, some (1 : ℚ)], [some 1, none]] 1 = some 1 := by
    norm_num [aoa_threshold, train_dist_avgmean, np_mean_opt, np_nanmean_row,
      np_nanmin_row, np_quantile, List.filterMap_cons, List.filterMap_nil,
      List.insertionSort, List.orderedInsert]
  exact aoa_scores_nonneg_and_mask [1, 5] [[none, some 1], [some 1, none]] 1 1 1
    (by norm_num) havg (by norm_num) ht 0 (by norm_num)

end Spacv
